import Mathlib

/-!
# Verification model of the `heatmap` package

Shallow embedding of `heatmap/heatmap.py` (the `Heatmap` class) together with
a model of the native rendering kernel (`cHeatmap`, reached through `ctypes`)
which is not part of the visible Python sources.

Modelling conventions:
* Data-space coordinates are modelled as exact rationals (`ℚ`).  The Python
  wrapper converts them to C `float`s before handing them to the kernel; that
  rounding is below the granularity of the properties checked here.
* A raised Python exception is modelled by an `Except`/`Option` error value.
* The mutable `Heatmap` instance is modelled by an explicit record `HState`
  threaded through the operations.
-/

set_option autoImplicit false

namespace HeatmapModel

/-- A data-space point: an `(x, y)` pair. -/
abbrev Point := ℚ × ℚ

/-- An area: a `(bottom_left_xy, top_right_xy)` pair of corners. -/
abbrev Area := (ℚ × ℚ) × (ℚ × ℚ)

/-- Failure kinds of the rendering kernel.  The kernel itself is not under
`src/`; these are the spec's `InvalidParameterError` and `EmptyInputError`
kinds, which the Python wrapper surfaces as a generic
`Exception("Unexpected error during processing.")` when `tx` returns 0. -/
inductive KErr
  | invalidParameter
  | emptyInput
deriving Repr, DecidableEq

/-- Python-level exceptions raised by the `Heatmap` wrapper.
* `valueError`: `ValueError` — unknown scheme name (`heatmap.py:182`), a
  `min()`/`max()` call on an empty RGB entry, or a negative `ctypes` array
  length when allocating the output buffer.
* `typeError`: `TypeError` — malformed RGB entry in `_convert_scheme`
  (`heatmap.py:246`); the spec calls this kind `InvalidColorSchemeError`.
* `processing k`: the generic `Exception` raised when the kernel call
  returns 0 (`heatmap.py:196`), carrying the modelled kernel failure kind.
* `mustRunHeatmap`: the `Exception` raised by `save_kml` when no image has
  been generated (`heatmap.py:290`). -/
inductive HErr
  | valueError
  | typeError
  | processing (k : KErr)
  | mustRunHeatmap
deriving Repr, DecidableEq

/-- Errors raised inside `_convert_scheme`'s per-entry check. -/
inductive SchemeErr
  | valueError
  | typeError
deriving Repr, DecidableEq

/-- The mutable attributes of a `Heatmap` instance (`heatmap.py:105-115`).
All start out as `None` in `__init__`. -/
structure HState where
  img : Option (List Nat)
  points : Option (List Point)
  dotsize : Option Int
  opacity : Option Int
  size : Option (Int × Int)
  area : Option Area
  override : Option Nat
deriving Repr, DecidableEq

/-- The state right after `Heatmap.__init__`: every attribute is `None`. -/
def initState : HState := ⟨none, none, none, none, none, none, none⟩

/-- The arguments of `Heatmap.heatmap`, with the Python default values
(`heatmap.py:143-144`). -/
structure HArgs where
  points : List Point
  dotsize : Int := 150
  opacity : Int := 128
  size : Int × Int := (1024, 1024)
  scheme : String := "classic"
  area : Option Area := none
deriving Repr, DecidableEq

/-- `Heatmap._convert_points` (`heatmap.py:215-230`): flatten the point list
into `[x0, y0, x1, y1, ...]`.  With well-typed pair input the Python loop
cannot fail. -/
def convert_points (points : List Point) : List ℚ :=
  points.foldl (fun flat p => flat ++ [p.1, p.2]) []

/-- Loop body of `Heatmap._convert_scheme` (`heatmap.py:243-247`): for each
`rgb` entry, Python evaluates `min(rgb) < 0x00 or max(rgb) > 0xFF or
len(rgb) != 3` and raises `TypeError` when it holds; on an *empty* entry,
`min()` itself raises `ValueError` first.  For a non-empty list,
`min(rgb) < 0` is "some channel `< 0`" and `max(rgb) > 255` is "some channel
`> 255`", which is how the test is rendered here.  Passing entries are
appended to the flat accumulator. -/
def checkRGBLoop : List (List Int) → List Int → Except SchemeErr (List Int)
  | [], flat => .ok flat
  | rgb :: rest, flat =>
    if rgb = [] then .error .valueError
    else if rgb.any (fun c => c < 0) ∨ rgb.any (fun c => 255 < c) ∨ rgb.length ≠ 3 then
      .error .typeError
    else checkRGBLoop rest (flat ++ rgb)

/-- `Heatmap._convert_scheme` (`heatmap.py:232-249`): validate every RGB
entry and return the flattened channel list.  Note that the *length* of the
scheme is never inspected. -/
def convert_scheme (scheme : List (List Int)) : Except SchemeErr (List Int) :=
  checkRGBLoop scheme []

/-- The loop step of `Heatmap._create_bbox` (`heatmap.py:261-263`). -/
def bboxStep (acc : Area) (q : Point) : Area :=
  ((min q.1 acc.1.1, min q.2 acc.1.2), (max q.1 acc.2.1, max q.2 acc.2.2))

/-- `Heatmap._create_bbox` (`heatmap.py:251-265`): seed min/max with
`points[0]` (an `IndexError`, modelled as `none`, on an empty list) and then
fold over the whole list. -/
def create_bbox : List Point → Option Area
  | [] => none
  | p :: ps => some ((p :: ps).foldl bboxStep ((p.1, p.2), (p.1, p.2)))

/-- `Heatmap.get_bounds` (`heatmap.py:267-278`): if `self.override` is
truthy return `self.area` verbatim, otherwise recompute the bounding box of
`self.points`.  A `None` in the consulted attribute is a raised `TypeError`,
modelled as `none`. -/
def get_bounds (s : HState) : Option Area :=
  if s.override.getD 0 ≠ 0 then s.area
  else s.points.bind create_bbox

/-- Modelled from the spec: the `colorschemes` module is not under `src/`.
Per the spec (§3) and the repository tests, every registered scheme is a
256-entry table of RGB 3-tuples with channels in `[0, 255]`; the concrete
colors do not matter to any property checked here, so a simple in-range
gradient stands in for each table. -/
def demoTable : List (List Int) :=
  (List.range 256).map (fun i : Nat => [(i : Int), (i : Int), (i : Int)])

/-- Modelled from the spec: the `colorschemes.SCHEMES` registry (not under
`src/`).  The five scheme names are fixed by the repository tests. -/
def SCHEMES : List (String × List (List Int)) :=
  [("fire", demoTable), ("pgaitch", demoTable), ("pbj", demoTable),
   ("omg", demoTable), ("classic", demoTable)]

/-- `Heatmap.get_scheme_names` (`heatmap.py:304-310`). -/
def get_scheme_names : List String := SCHEMES.map (fun e => e.1)

/-- Modelled from the spec: the kernel's projection of a data-space `x` onto
a pixel column (spec §4.1) — linear from `[blx, trx]` onto `[0, W)`, taking
the floor; a degenerate axis maps everything to the midpoint `W / 2`. -/
def projectX (blx trx : ℚ) (W : Nat) (x : ℚ) : Int :=
  if blx = trx then (W : Int) / 2
  else Rat.floor ((x - blx) * (W : ℚ) / (trx - blx))

/-- Modelled from the spec: the kernel's projection of a data-space `y` onto
a pixel row (spec §4.1) — linear from `[bly, try]` onto `[H, 0)`, so that
increasing `y` moves toward row 0; a degenerate axis maps everything to the
midpoint `H / 2`. -/
def projectY (bly tr_y : ℚ) (H : Nat) (y : ℚ) : Int :=
  if bly = tr_y then (H : Int) / 2
  else Rat.floor ((tr_y - y) * (H : ℚ) / (tr_y - bly))

/-- Modelled from the spec: the dot-stamp kernel weight (spec §4.2) at
offset `(i, j)` of a `d × d` kernel — radially symmetric, `255` at the
center, decaying to `0` at radius `d / 2`.  The spec leaves the exact
falloff curve to the implementer; a quadratic falloff
`255 · max 0 (1 − dist² / r²)` is chosen so the weights stay rational. -/
def stampWeight (d i j : Nat) : Nat :=
  let c : ℚ := ((d : ℚ) - 1) / 2
  let r2 : ℚ := ((d : ℚ) / 2) ^ 2
  let dist2 : ℚ := ((i : ℚ) - c) ^ 2 + ((j : ℚ) - c) ^ 2
  (Rat.floor (255 * max 0 (1 - dist2 / r2))).toNat

/-- Modelled from the spec: `AccumulationBuffer.stamp` (spec §4.3).  The
buffer is a total function from `(col, row)` to the cell's density.  One
stamp centred at `ctr` adds the kernel weight into every in-bounds cell of
the `d × d` square around the centre, clamping the sum at 255; out-of-bounds
kernel cells are silently skipped. -/
def stamped (d W H : Nat) (ctr : Int × Int) (buf : Nat → Nat → Nat) : Nat → Nat → Nat :=
  fun col row =>
    let i : Int := (col : Int) - (ctr.1 - (d : Int) / 2)
    let j : Int := (row : Int) - (ctr.2 - (d : Int) / 2)
    if 0 ≤ i ∧ i < (d : Int) ∧ 0 ≤ j ∧ j < (d : Int) ∧ col < W ∧ row < H then
      min (buf col row + stampWeight d i.toNat j.toNat) 255
    else buf col row

/-- Modelled from the spec: the stamping pass (spec §2, §4.3) — start from
the zero-initialized buffer and stamp every projected point in order. -/
def accumulate (d W H : Nat) (ctrs : List (Int × Int)) : Nat → Nat → Nat :=
  ctrs.foldl (fun b c => stamped d W H c b) (fun _ _ => 0)

/-- Modelled from the spec: the Colorizer on one cell (spec §4.4).  Density
0 is fully transparent `(0,0,0,0)`; otherwise the RGB triple is read from
the flattened scheme at indices `3v, 3v+1, 3v+2` and the alpha is
`v · opacity / 255`, rounded and clamped to `[0, 255]`. -/
def colorizeCell (scheme : List Int) (opacity : Int) (v : Nat) : List Nat :=
  if v = 0 then [0, 0, 0, 0]
  else
    [(scheme.getD (3 * v) 0).toNat,
     (scheme.getD (3 * v + 1) 0).toNat,
     (scheme.getD (3 * v + 2) 0).toNat,
     (min (max (((v : Int) * opacity + 127) / 255) 0) 255).toNat]

/-- Modelled from the spec: the Colorizer pass producing `RasterOutput`
(spec §2, §4.4) — row-major RGBA bytes, top row (row 0) first. -/
def rasterize (W H : Nat) (buf : Nat → Nat → Nat) (scheme : List Int)
    (opacity : Int) : List Nat :=
  ((List.range H).map (fun row =>
    ((List.range W).map (fun col => colorizeCell scheme opacity (buf col row))).flatten)).flatten

/-- Modelled from the spec: the native kernel entry point `tx` (the
`cHeatmap` shared library called at `heatmap.py:189-193` is not under
`src/`).  Per spec §4.1, §4.5 it validates `dotsize ≥ 1` and positive
dimensions, rejects an empty point set when no explicit area is given, and
otherwise projects, stamps and colorizes into the RGBA raster.  The Python
wrapper observes only success (nonzero return) or failure (zero return). -/
def tx (pts : List Point) (w h dotsize : Int) (scheme : List Int) (opacity : Int)
    (override : Nat) (ar : Area) : Except KErr (List Nat) :=
  if dotsize < 1 ∨ w ≤ 0 ∨ h ≤ 0 then .error .invalidParameter
  else if override = 0 ∧ pts = [] then .error .emptyInput
  else
    let eff : Area := if override ≠ 0 then ar else (create_bbox pts).getD ((0, 0), (0, 0))
    let W := w.toNat
    let H := h.toNat
    let d := dotsize.toNat
    let ctrs := pts.map (fun p =>
      (projectX eff.1.1 eff.2.1 W p.1, projectY eff.1.2 eff.2.2 H p.2))
    .ok (rasterize W H (accumulate d W H ctrs) scheme opacity)

/-- The attribute stores performed at the top of `Heatmap.heatmap`
(`heatmap.py:169-179`), *before* any validation: the call arguments are
written into the instance, `area` defaulting to `((0,0),(0,0))` with
`override = 0` when not supplied, and `override = 1` otherwise. -/
def storeArgs (s : HState) (a : HArgs) : HState :=
  { s with
    dotsize := some a.dotsize
    opacity := some a.opacity
    size := some a.size
    points := some a.points
    area := some (a.area.getD ((0, 0), (0, 0)))
    override := some (if a.area.isSome then 1 else 0) }

/-- `Heatmap.heatmap` (`heatmap.py:143-200`): store the arguments, check the
scheme name (`ValueError`), convert points and scheme (`TypeError` /
`ValueError`), allocate the output buffer (`(ctypes.c_ubyte * n)` raises
`ValueError` when `n = width·height·4` is negative), call the kernel
(`Exception` when it reports failure), and finally store and return the
raster image. -/
def heatmap (s : HState) (a : HArgs) : HState × Except HErr (List Nat) :=
  let s1 := storeArgs s a
  if a.scheme ∈ get_scheme_names then
    let _arr_points := convert_points a.points
    match convert_scheme ((SCHEMES.lookup a.scheme).getD []) with
    | .error .valueError => (s1, .error .valueError)
    | .error .typeError => (s1, .error .typeError)
    | .ok arr_scheme =>
      if 0 ≤ a.size.1 * a.size.2 * 4 then
        match tx a.points a.size.1 a.size.2 a.dotsize arr_scheme a.opacity
            (if a.area.isSome then 1 else 0) (a.area.getD ((0, 0), (0, 0))) with
        | .error k => (s1, .error (.processing k))
        | .ok raster => ({ s1 with img := some raster }, .ok raster)
      else (s1, .error .valueError)
  else (s1, .error .valueError)

/-- The KML `GroundOverlay` written by `save_kml`, as filled into
`_KML_TPL` (`heatmap.py:65-82`, `heatmap.py:295-298`): the `href` and the
four `LatLonBox` fields. -/
structure KmlOverlay where
  href : String
  north : ℚ
  south : ℚ
  east : ℚ
  west : ℚ
deriving Repr, DecidableEq

/-- A file written by `save_kml`: the raster PNG or the KML document. -/
inductive FileWrite
  | png (path : String) (img : List Nat)
  | kml (path : String) (overlay : KmlOverlay)
deriving Repr, DecidableEq

/-- `os.path.splitext(f)[0]`: the path with its last extension removed. -/
def stripExt (f : String) : String :=
  let parts := f.splitOn "."
  if parts.length ≤ 1 then f else String.intercalate "." parts.dropLast

/-- `Heatmap.save_kml` (`heatmap.py:280-298`): raise when no image has been
generated yet; otherwise save the PNG, destructure `get_bounds()` as
`(east, south), (west, north)`, and write the KML file.  Returns the list of
file writes performed together with the outcome. -/
def save_kml (s : HState) (kml_file : String) : List FileWrite × Except HErr Unit :=
  match s.img with
  | none => ([], .error .mustRunHeatmap)
  | some img =>
    let raster_path := stripExt kml_file ++ ".png"
    match get_bounds s with
    | none => ([.png raster_path img], .error .typeError)
    | some ((east, south), (west, north)) =>
      ([.png raster_path img,
        .kml kml_file
          { href := raster_path, north := north, south := south,
            east := east, west := west }],
       .ok ())

/-! ## Concrete inputs used by witnesses and counterexamples -/

/-- Two points with an auto-derived area, on a small 4×4 raster. -/
def cArgs2 : HArgs := { points := [(0, 0), (10, 10)], dotsize := 1, size := (4, 4) }

/-- A state in which a previous call stored points `[(1, 1)]`. -/
def sPrev : HState := { initState with points := some [(1, 1)], override := some 0 }

/-- A call with an unknown scheme name. -/
def badArgs : HArgs := { points := [(2, 2)], scheme := "nope" }

/-- An empty point list with no explicit area. -/
def empArgs : HArgs := { points := [] }

/-- A call with a negative width. -/
def negArgs : HArgs := { points := [(1, 1)], size := (-1, 1024) }

/-- A call with `dotsize = 0`. -/
def dotArgs : HArgs := { points := [(1, 1)], dotsize := 0, size := (4, 4) }

/-- A call with a degenerate explicit area: `bottom_left.x > top_right.x`. -/
def degArgs : HArgs :=
  { points := [(1, 1)], dotsize := 1, size := (4, 4), area := some ((10, 0), (0, 10)) }

/-- A post-render-like state with a stored image and stored points. -/
def sDone : HState :=
  { initState with img := some [], points := some [(0, 0), (10, 10)], override := some 0 }

/-! ## Helper lemmas -/

lemma isOk_exists {ε α : Type} {e : Except ε α} (h : e.isOk = true) : ∃ a, e = .ok a := by
  cases e with
  | error x => simp [Except.isOk, Except.toBool] at h
  | ok a => exact ⟨a, rfl⟩

lemma heatmap_cases (s : HState) (a : HArgs) :
    ((heatmap s a).1 = storeArgs s a ∧ (heatmap s a).2.isOk = false) ∨
      ∃ r, (heatmap s a).1 = { storeArgs s a with img := some r } ∧
        (heatmap s a).2 = .ok r := by
  simp only [heatmap]
  split
  · split
    · exact Or.inl ⟨rfl, rfl⟩
    · exact Or.inl ⟨rfl, rfl⟩
    · split
      · split
        · exact Or.inl ⟨rfl, rfl⟩
        · exact Or.inr ⟨_, rfl, rfl⟩
      · exact Or.inl ⟨rfl, rfl⟩
  · exact Or.inl ⟨rfl, rfl⟩

lemma heatmap_img_of_not_ok (s : HState) (a : HArgs)
    (h : (heatmap s a).2.isOk = false) : (heatmap s a).1.img = s.img := by
  rcases heatmap_cases s a with ⟨h1, _⟩ | ⟨r, h1, h2⟩
  · rw [h1]; rfl
  · rw [h2] at h; simp [Except.isOk, Except.toBool] at h

lemma tx_invalidParameter (pts : List Point) (w h d : Int) (sch : List Int) (op : Int)
    (ov : Nat) (ar : Area) (hbad : d < 1 ∨ w ≤ 0 ∨ h ≤ 0) :
    tx pts w h d sch op ov ar = .error .invalidParameter := by
  unfold tx
  rw [if_pos hbad]

lemma tx_emptyInput (pts : List Point) (w h d : Int) (sch : List Int) (op : Int)
    (ar : Area) (hp : pts = []) (hd : 1 ≤ d) (hw : 0 < w) (hh : 0 < h) :
    tx pts w h d sch op 0 ar = .error .emptyInput := by
  subst hp
  unfold tx
  rw [if_neg (by omega), if_pos ⟨rfl, rfl⟩]

lemma tx_error_of_empty (w h d : Int) (sch : List Int) (op : Int) (ar : Area) :
    (tx [] w h d sch op 0 ar).isOk = false := by
  unfold tx
  split
  · rfl
  · rw [if_pos ⟨rfl, rfl⟩]; rfl

lemma checkRGBLoop_isOk (scheme : List (List Int)) : ∀ flat : List Int,
    (checkRGBLoop scheme flat).isOk = true ↔
      ∀ rgb ∈ scheme, rgb.length = 3 ∧ ∀ c ∈ rgb, 0 ≤ c ∧ c ≤ 255 := by
  induction scheme with
  | nil => intro flat; simp [checkRGBLoop, Except.isOk, Except.toBool]
  | cons rgb rest ih =>
    intro flat
    simp only [checkRGBLoop]
    by_cases h0 : rgb = []
    · rw [if_pos h0]
      subst h0
      simp only [Except.isOk, Except.toBool, Bool.false_eq_true, false_iff]
      intro hP
      have := (hP [] (List.mem_cons_self _ _)).1
      simp at this
    · rw [if_neg h0]
      by_cases h1 : rgb.any (fun c => c < 0) ∨ rgb.any (fun c => 255 < c) ∨ rgb.length ≠ 3
      · rw [if_pos h1]
        simp only [Except.isOk, Except.toBool, Bool.false_eq_true, false_iff]
        intro hP
        obtain ⟨hlen, hc⟩ := hP rgb (List.mem_cons_self _ _)
        rcases h1 with hA | hA | hA
        · simp only [List.any_eq_true, decide_eq_true_eq] at hA
          obtain ⟨c, hcm, hclt⟩ := hA
          exact absurd (hc c hcm).1 (by omega)
        · simp only [List.any_eq_true, decide_eq_true_eq] at hA
          obtain ⟨c, hcm, hclt⟩ := hA
          exact absurd (hc c hcm).2 (by omega)
        · exact hA hlen
      · rw [if_neg h1]
        rw [ih (flat ++ rgb)]
        simp only [not_or, List.any_eq_true, decide_eq_true_eq, not_exists, not_and,
          not_lt, ne_eq, not_not] at h1
        obtain ⟨hA, hB, hC⟩ := h1
        constructor
        · intro hrest rgb' hrgb'
          rcases List.mem_cons.mp hrgb' with heq | hmem
          · subst heq
            exact ⟨hC, fun c hcm => ⟨hA c hcm, hB c hcm⟩⟩
          · exact hrest rgb' hmem
        · intro hall rgb' hmem
          exact hall rgb' (List.mem_cons_of_mem _ hmem)

lemma demoTable_ok : (convert_scheme demoTable).isOk = true := by
  rw [show convert_scheme demoTable = checkRGBLoop demoTable [] from rfl,
    checkRGBLoop_isOk]
  intro rgb hm
  rw [demoTable, List.mem_map] at hm
  obtain ⟨a, ha, rfl⟩ := hm
  rw [List.mem_range] at ha
  refine ⟨rfl, ?_⟩
  intro c hc
  have h1 : c = (a : Int) := by
    simp only [List.mem_cons, List.not_mem_nil, or_false] at hc
    rcases hc with h | h | h <;> exact h
  subst h1
  constructor <;> omega

lemma scheme_lookup_ok (n : String) (h : n ∈ get_scheme_names) :
    ∃ flat, convert_scheme ((SCHEMES.lookup n).getD []) = .ok flat := by
  simp [get_scheme_names, SCHEMES] at h
  rcases h with h | h | h | h | h <;> subst h <;> exact isOk_exists demoTable_ok

lemma heatmap_ok_points_ne_nil (s : HState) (a : HArgs)
    (h : (heatmap s a).2.isOk = true) (ha : a.area = none) : a.points ≠ [] := by
  intro hp
  have hover : (if a.area.isSome then (1 : Nat) else 0) = 0 := by simp [ha]
  simp only [heatmap, hover, hp] at h
  split at h
  · split at h
    · simp [Except.isOk, Except.toBool] at h
    · simp [Except.isOk, Except.toBool] at h
    · rename_i arr_scheme heqs
      split at h
      · split at h
        · simp [Except.isOk, Except.toBool] at h
        · rename_i raster heq
          have hzero := tx_error_of_empty a.size.1 a.size.2 a.dotsize arr_scheme a.opacity
            (a.area.getD ((0, 0), (0, 0)))
          rw [heq] at hzero
          simp [Except.isOk, Except.toBool] at hzero
      · simp [Except.isOk, Except.toBool] at h
  · simp [Except.isOk, Except.toBool] at h

/-! ## C1: color-scheme validation -/

set_option maxRecDepth 4000

/-- C1 counterexample: a well-formed table of only 255 entries passes
`_convert_scheme` without error, although its length is not 256 — the claim
that validation fails whenever the length differs from 256 is false. -/
theorem c1_counterexample :
    (convert_scheme (List.replicate 255 ([0, 0, 0] : List Int))).isOk = true ∧
    (List.replicate 255 ([0, 0, 0] : List Int)).length ≠ 256 :=
  ⟨by decide, by decide⟩

/-- C1 (amended): the scheme conversion (which runs before the output buffer
is allocated and before the kernel is called) succeeds iff every entry is a
3-tuple of channels in `[0, 255]`; the table's *length* is not checked, so a
well-formed table of any length — 256 entries or not — passes. -/
theorem c1_scheme_validation (scheme : List (List Int)) :
    (convert_scheme scheme).isOk = true ↔
      ∀ rgb ∈ scheme, rgb.length = 3 ∧ ∀ c ∈ rgb, 0 ≤ c ∧ c ≤ 255 :=
  checkRGBLoop_isOk scheme []

/-- Witness for C1's amended theorem: a concrete well-formed (2-entry) table
passes the conversion. -/
theorem c1_witness :
    (convert_scheme [[0, 0, 0], [255, 255, 255]]).isOk = true :=
  (c1_scheme_validation [[0, 0, 0], [255, 255, 255]]).mpr (by decide)

/-! ## C7: saturation invariant -/

lemma rat_floor_le_255 (q : ℚ) (h : q ≤ 255) : (Rat.floor q).toNat ≤ 255 := by
  have hfloor : Rat.floor q ≤ 255 := by
    by_contra hcon
    push_neg at hcon
    have h2 : ((256 : ℤ) : ℚ) ≤ q := Rat.le_floor.mp (by omega)
    push_cast at h2
    linarith
  exact Int.toNat_le.mpr hfloor

lemma mul_max_le_255 (t : ℚ) (ht : 0 ≤ t) : 255 * max 0 (1 - t) ≤ 255 := by
  have hm : max (0 : ℚ) (1 - t) ≤ 1 := max_le (by norm_num) (by linarith)
  nlinarith

lemma stampWeight_le (d i j : Nat) : stampWeight d i j ≤ 255 := by
  simp only [stampWeight]
  exact rat_floor_le_255 _ (mul_max_le_255 _ (by positivity))

lemma stamped_le (d W H : Nat) (ctr : Int × Int) (buf : Nat → Nat → Nat)
    (hb : ∀ c r, buf c r ≤ 255) : ∀ c r, stamped d W H ctr buf c r ≤ 255 := by
  intro c r
  simp only [stamped]
  split
  · exact min_le_right _ _
  · exact hb c r

lemma foldl_stamp_le (d W H : Nat) (ctrs : List (Int × Int)) :
    ∀ buf : Nat → Nat → Nat, (∀ c r, buf c r ≤ 255) →
      ∀ c r, (ctrs.foldl (fun b q => stamped d W H q b) buf) c r ≤ 255 := by
  induction ctrs with
  | nil => intro buf hb; exact hb
  | cons q qs ih =>
    intro buf hb
    exact ih _ (stamped_le d W H q buf hb)

/-- C7: after stamping any prefix of the point list (i.e. at every
intermediate moment of the accumulation pass), every cell of the
accumulation buffer is at most 255 — overlapping contributions saturate via
the clamp and never wrap, regardless of how many points hit the cell. -/
theorem c7_saturation (d W H : Nat) (ctrs : List (Int × Int)) (n col row : Nat) :
    accumulate d W H (ctrs.take n) col row ≤ 255 :=
  foldl_stamp_le d W H (ctrs.take n) _ (fun _ _ => Nat.zero_le 255) col row

/-! ## C3: fail-fast / all-or-nothing behaviour of the render call -/

lemma colorizeCell_length (sch : List Int) (op : Int) (v : Nat) :
    (colorizeCell sch op v).length = 4 := by
  unfold colorizeCell
  split <;> rfl

lemma rasterize_length (W H : Nat) (buf : Nat → Nat → Nat) (sch : List Int) (op : Int) :
    (rasterize W H buf sch op).length = W * H * 4 := by
  unfold rasterize
  rw [List.length_flatten]
  have hrow : ∀ row : Nat,
      (((List.range W).map (fun col => colorizeCell sch op (buf col row))).flatten).length
        = W * 4 := by
    intro row
    rw [List.length_flatten, List.map_map]
    have : (List.range W).map (List.length ∘ fun col => colorizeCell sch op (buf col row))
        = List.replicate W 4 := by
      rw [show List.replicate W 4 = (List.range W).map (fun _ => 4) by
        rw [List.map_const', List.length_range]]
      exact List.map_congr_left (fun c _ => colorizeCell_length sch op (buf c row))
    rw [this, List.sum_replicate, smul_eq_mul]
  rw [List.map_map]
  have : (List.range H).map (List.length ∘ fun row =>
      ((List.range W).map (fun col => colorizeCell sch op (buf col row))).flatten)
      = List.replicate H (W * 4) := by
    rw [show List.replicate H (W * 4) = (List.range H).map (fun _ => W * 4) by
      rw [List.map_const', List.length_range]]
    exact List.map_congr_left (fun row _ => hrow row)
  rw [this, List.sum_replicate, smul_eq_mul]
  ring

lemma tx_ok_length {pts : List Point} {w h d : Int} {sch : List Int} {op : Int}
    {ov : Nat} {ar : Area} {r : List Nat} (ht : tx pts w h d sch op ov ar = .ok r) :
    r.length = w.toNat * h.toNat * 4 := by
  unfold tx at ht
  split at ht
  · exact absurd ht (by simp)
  · split at ht
    · exact absurd ht (by simp)
    · rw [Except.ok.injEq] at ht
      rw [← ht]
      exact rasterize_length _ _ _ _ _

/-- C3 counterexample: a render call that fails validation (unknown scheme
name) still overwrites the stored points before failing, so the observable
`get_bounds` output changes even though the call produced no raster — the
"no observable state is mutated" half of the claim is false. -/
theorem c3_counterexample :
    ((heatmap sPrev badArgs).2).isOk = false ∧
    get_bounds (heatmap sPrev badArgs).1 ≠ get_bounds sPrev :=
  ⟨by decide, by decide⟩

/-- C3 (amended): the call stores its arguments (points, dotsize, opacity,
size, area, override) *before* any validation, so a failing call does mutate
the state `get_bounds` observes; however the stored image is never touched
by a failing call, no raster is returned on failure, and a successful call
stores and returns one complete raster of exactly width·height·4 bytes. -/
theorem c3_all_or_nothing (s : HState) (a : HArgs) :
    ((heatmap s a).2.isOk = false → (heatmap s a).1.img = s.img) ∧
    ((heatmap s a).2.isOk = true →
      (heatmap s a).1.img = (heatmap s a).2.toOption ∧
      ∀ r ∈ (heatmap s a).2.toOption, r.length = a.size.1.toNat * a.size.2.toNat * 4) := by
  constructor
  · exact heatmap_img_of_not_ok s a
  · intro hok
    rcases heatmap_cases s a with ⟨h1, hbad⟩ | ⟨r, h1, h2⟩
    · rw [hbad] at hok
      exact absurd hok (by simp)
    · constructor
      · rw [h1, h2]
        rfl
      · intro r' hr'
        rw [h2] at hr'
        simp only [Except.toOption, Option.mem_def, Option.some.injEq] at hr'
        subst hr'
        -- recover the tx success equation from the branch structure
        have hlen : ∃ pts w hh d sch op ov ar, tx pts w hh d sch op ov ar = .ok r ∧
            w = a.size.1 ∧ hh = a.size.2 := by
          have h2' := h2
          simp only [heatmap] at h2'
          split at h2'
          · split at h2'
            · exact absurd h2' (by simp)
            · exact absurd h2' (by simp)
            · split at h2'
              · split at h2'
                · exact absurd h2' (by simp)
                · rename_i raster heq
                  rw [Except.ok.injEq] at h2'
                  subst h2'
                  exact ⟨_, _, _, _, _, _, _, _, heq, rfl, rfl⟩
              · exact absurd h2' (by simp)
          · exact absurd h2' (by simp)
        obtain ⟨pts, w, hh, d, sch, op, ov, ar, heq, hw, hhh⟩ := hlen
        subst hw hhh
        exact tx_ok_length heq

/-- Witness for C3's amended theorem: a failing call leaves the stored image
unchanged, and a successful 4×4 render stores its complete 64-byte raster. -/
theorem c3_witness :
    ((heatmap sPrev badArgs).1.img = sPrev.img) ∧
    ((heatmap initState cArgs2).1.img = (heatmap initState cArgs2).2.toOption ∧
      ∀ r ∈ (heatmap initState cArgs2).2.toOption,
        r.length = cArgs2.size.1.toNat * cArgs2.size.2.toNat * 4) :=
  ⟨(c3_all_or_nothing sPrev badArgs).1 (by decide),
   (c3_all_or_nothing initState cArgs2).2 (by decide)⟩

/-! ## C4: empty input without an explicit area -/

/-- C4: an otherwise-valid render call (known scheme, dotsize ≥ 1, positive
dimensions) with an empty point sequence and no explicit area fails with the
kernel's EmptyInputError (surfaced by the wrapper as its processing
exception) and neither stores nor returns any raster. -/
theorem c4_empty_input (s : HState) (a : HArgs)
    (hpts : a.points = []) (harea : a.area = none)
    (hscheme : a.scheme ∈ get_scheme_names)
    (hd : 1 ≤ a.dotsize) (hw : 0 < a.size.1) (hh : 0 < a.size.2) :
    (heatmap s a).2 = .error (.processing .emptyInput) ∧
    (heatmap s a).1.img = s.img := by
  obtain ⟨flat, hflat⟩ := scheme_lookup_ok a.scheme hscheme
  have halloc : 0 ≤ a.size.1 * a.size.2 * 4 :=
    le_of_lt (mul_pos (mul_pos hw hh) (by norm_num))
  have hover : (if a.area.isSome then (1 : Nat) else 0) = 0 := by simp [harea]
  have htx := tx_emptyInput a.points a.size.1 a.size.2 a.dotsize flat a.opacity
    (a.area.getD ((0, 0), (0, 0))) hpts hd hw hh
  have hres : (heatmap s a).2 = .error (.processing .emptyInput) := by
    simp [heatmap, hscheme, hflat, halloc, hover, htx, -Prod.mk_zero_zero]
  refine ⟨hres, heatmap_img_of_not_ok s a ?_⟩
  rw [hres]
  rfl

/-- Witness for C4: `heatmap([])` with defaults (classic scheme, dotsize
150, size 1024×1024, no area) fails with the empty-input error. -/
theorem c4_witness :
    (heatmap initState empArgs).2 = .error (.processing .emptyInput) ∧
    (heatmap initState empArgs).1.img = initState.img :=
  c4_empty_input initState empArgs rfl rfl (by decide) (by decide) (by decide) (by decide)

/-! ## C5: invalid dotsize or dimensions -/

/-- C5 counterexample: with width = −1 (and height 1024) the call does fail
before producing output, but the failure is the `ValueError` raised by the
`ctypes` output-buffer allocation (`(c_ubyte * n)` with `n < 0`), not the
kernel's InvalidParameterError — the kernel is never reached. -/
theorem c5_counterexample :
    (heatmap initState negArgs).2 = .error .valueError ∧
    (heatmap initState negArgs).2 ≠ .error (.processing .invalidParameter) := by
  have h : (heatmap initState negArgs).2 = .error .valueError := rfl
  refine ⟨h, ?_⟩
  rw [h]
  simp

/-- C5 (amended): whenever dotsize < 1 or width ≤ 0 or height ≤ 0, the call
fails and neither stores nor returns any raster; when the scheme name is
valid and width·height·4 is non-negative (so the buffer allocation
succeeds), the failure is specifically the kernel's InvalidParameterError;
when width·height·4 is negative the ctypes allocation's ValueError fires
first. -/
theorem c5_invalid_parameter (s : HState) (a : HArgs)
    (hbad : a.dotsize < 1 ∨ a.size.1 ≤ 0 ∨ a.size.2 ≤ 0) :
    (heatmap s a).2.isOk = false ∧ (heatmap s a).1.img = s.img ∧
    (a.scheme ∈ get_scheme_names → 0 ≤ a.size.1 * a.size.2 * 4 →
      (heatmap s a).2 = .error (.processing .invalidParameter)) := by
  have htx : ∀ sch, tx a.points a.size.1 a.size.2 a.dotsize sch a.opacity
      (if a.area.isSome then 1 else 0) (a.area.getD ((0, 0), (0, 0)))
      = .error .invalidParameter := fun sch =>
    tx_invalidParameter _ _ _ _ sch _ _ _ hbad
  have hfail : (heatmap s a).2.isOk = false := by
    by_cases hs : a.scheme ∈ get_scheme_names
    · cases hc : convert_scheme ((SCHEMES.lookup a.scheme).getD []) with
      | error e => cases e <;> simp [heatmap, hs, hc, Except.isOk, Except.toBool]
      | ok flat =>
        by_cases hal : 0 ≤ a.size.1 * a.size.2 * 4
        · simp [heatmap, hs, hc, hal, htx flat, Except.isOk, Except.toBool,
            -Prod.mk_zero_zero]
        · simp [heatmap, hs, hc, hal, Except.isOk, Except.toBool]
    · simp [heatmap, hs, Except.isOk, Except.toBool]
  refine ⟨hfail, heatmap_img_of_not_ok s a hfail, ?_⟩
  intro hs hal
  obtain ⟨flat, hflat⟩ := scheme_lookup_ok a.scheme hs
  simp [heatmap, hs, hflat, hal, htx flat, -Prod.mk_zero_zero]

/-- Witness for C5's amended theorem at `dotsize = 0` on a valid 4×4 call:
the result is exactly the kernel's invalid-parameter failure and the stored
image is untouched. -/
theorem c5_witness :
    (heatmap initState dotArgs).2.isOk = false ∧
    (heatmap initState dotArgs).1.img = initState.img ∧
    (heatmap initState dotArgs).2 = .error (.processing .invalidParameter) := by
  have h := c5_invalid_parameter initState dotArgs (Or.inl (by decide))
  exact ⟨h.1, h.2.1, h.2.2 (by decide) (by decide)⟩

/-! ## C8: determinism / independence from instance state -/

/-- C8: the outcome of a render call — the full error-or-raster result —
depends only on the call's arguments (points, dotsize, opacity, size,
scheme, area), not on the instance's prior state; hence two calls with the
same inputs, on the same instance or different ones, produce byte-identical
rasters. -/
theorem c8_determinism (s₁ s₂ : HState) (a : HArgs) :
    (heatmap s₁ a).2 = (heatmap s₂ a).2 := by
  by_cases hs : a.scheme ∈ get_scheme_names
  · cases hc : convert_scheme ((SCHEMES.lookup a.scheme).getD []) with
    | error e => cases e <;> simp [heatmap, hs, hc]
    | ok flat =>
      by_cases hal : 0 ≤ a.size.1 * a.size.2 * 4
      · cases ht : tx a.points a.size.1 a.size.2 a.dotsize flat a.opacity
            (if a.area.isSome then 1 else 0) (a.area.getD ((0, 0), (0, 0))) with
        | error k => simp [heatmap, hs, hc, hal, ht, -Prod.mk_zero_zero]
        | ok r => simp [heatmap, hs, hc, hal, ht, -Prod.mk_zero_zero]
      · simp [heatmap, hs, hc, hal]
  · simp [heatmap, hs]

/-! ## C9: `save_kml` without a rendered image -/

/-- C9: on an instance whose stored image is still `None`, `save_kml` raises
(its "Must first run heatmap()" exception) and performs no file write. -/
theorem c9_save_kml_requires_image (s : HState) (f : String) (h : s.img = none) :
    save_kml s f = ([], .error .mustRunHeatmap) := by
  unfold save_kml
  rw [h]

/-- Witness for C9 at the freshly initialized instance. -/
theorem c9_witness : save_kml initState "out.kml" = ([], .error .mustRunHeatmap) :=
  c9_save_kml_requires_image initState "out.kml" rfl

/-! ## C10: the KML LatLonBox field mapping -/

/-- C10: when an image exists and `get_bounds` yields
`(bottom_left, top_right)`, `save_kml` writes the PNG and then the KML whose
LatLonBox has `north = top_right.y`, `south = bottom_left.y`,
`east = bottom_left.x` and `west = top_right.x` — i.e. the `east` field
receives the box's first-corner x and the `west` field the second-corner x,
exactly as `(east, south), (west, north) = self.get_bounds()` destructures. -/
theorem c10_kml_latlonbox (s : HState) (f : String) (img : List Nat) (bl tr : ℚ × ℚ)
    (h1 : s.img = some img) (h2 : get_bounds s = some (bl, tr)) :
    save_kml s f =
      ([FileWrite.png (stripExt f ++ ".png") img,
        FileWrite.kml f
          { href := stripExt f ++ ".png",
            north := tr.2, south := bl.2, east := bl.1, west := tr.1 }],
       .ok ()) := by
  unfold save_kml
  rw [h1, h2]

/-! ## C2: the effective area reported by `get_bounds` -/

lemma foldl_min_le_init (x : ℚ) (l : List ℚ) : l.foldl (fun m v => min v m) x ≤ x := by
  induction l generalizing x with
  | nil => exact le_refl x
  | cons y ys ih => exact le_trans (ih (min y x)) (min_le_right y x)

lemma foldl_min_le_mem (x : ℚ) (l : List ℚ) :
    ∀ v ∈ l, l.foldl (fun m v => min v m) x ≤ v := by
  induction l generalizing x with
  | nil => intro v hv; simp at hv
  | cons y ys ih =>
    intro v hv
    rcases List.mem_cons.mp hv with rfl | hv'
    · exact le_trans (foldl_min_le_init (min v x) ys) (min_le_left v x)
    · exact ih (min y x) v hv'

lemma foldl_min_mem (x : ℚ) (l : List ℚ) : l.foldl (fun m v => min v m) x ∈ x :: l := by
  induction l generalizing x with
  | nil => exact List.mem_cons_self x []
  | cons y ys ih =>
    rcases List.mem_cons.mp (ih (min y x)) with he | hm
    · rcases min_choice y x with h1 | h1
      · rw [List.foldl_cons, he, h1]
        exact List.mem_cons_of_mem x (List.mem_cons_self y ys)
      · rw [List.foldl_cons, he, h1]
        exact List.mem_cons_self x (y :: ys)
    · exact List.mem_cons_of_mem x (List.mem_cons_of_mem y hm)

lemma foldl_max_ge_init (x : ℚ) (l : List ℚ) : x ≤ l.foldl (fun m v => max v m) x := by
  induction l generalizing x with
  | nil => exact le_refl x
  | cons y ys ih => exact le_trans (le_max_right y x) (ih (max y x))

lemma foldl_max_ge_mem (x : ℚ) (l : List ℚ) :
    ∀ v ∈ l, v ≤ l.foldl (fun m v => max v m) x := by
  induction l generalizing x with
  | nil => intro v hv; simp at hv
  | cons y ys ih =>
    intro v hv
    rcases List.mem_cons.mp hv with rfl | hv'
    · exact le_trans (le_max_left v x) (foldl_max_ge_init (max v x) ys)
    · exact ih (max y x) v hv'

lemma foldl_max_mem (x : ℚ) (l : List ℚ) : l.foldl (fun m v => max v m) x ∈ x :: l := by
  induction l generalizing x with
  | nil => exact List.mem_cons_self x []
  | cons y ys ih =>
    rcases List.mem_cons.mp (ih (max y x)) with he | hm
    · rcases max_choice y x with h1 | h1
      · rw [List.foldl_cons, he, h1]
        exact List.mem_cons_of_mem x (List.mem_cons_self y ys)
      · rw [List.foldl_cons, he, h1]
        exact List.mem_cons_self x (y :: ys)
    · exact List.mem_cons_of_mem x (List.mem_cons_of_mem y hm)

/-- The bbox fold decomposes into four scalar min/max folds over the
coordinate projections. -/
lemma bbox_foldl_eq (l : List Point) (acc : Area) :
    l.foldl bboxStep acc =
      (((l.map Prod.fst).foldl (fun m v => min v m) acc.1.1,
        (l.map Prod.snd).foldl (fun m v => min v m) acc.1.2),
       ((l.map Prod.fst).foldl (fun m v => max v m) acc.2.1,
        (l.map Prod.snd).foldl (fun m v => max v m) acc.2.2)) := by
  induction l generalizing acc with
  | nil => rfl
  | cons p ps ih =>
    simp only [List.foldl_cons, List.map_cons]
    rw [ih (bboxStep acc p)]
    rfl

/-- `_create_bbox` on a non-empty list returns the componentwise min/max
over all points: each corner coordinate bounds every point and is attained
by some point. -/
lemma create_bbox_spec (p : Point) (ps : List Point) :
    ∃ bl tr, create_bbox (p :: ps) = some (bl, tr) ∧
      (∀ q ∈ p :: ps, bl.1 ≤ q.1 ∧ bl.2 ≤ q.2 ∧ q.1 ≤ tr.1 ∧ q.2 ≤ tr.2) ∧
      bl.1 ∈ (p :: ps).map Prod.fst ∧ bl.2 ∈ (p :: ps).map Prod.snd ∧
      tr.1 ∈ (p :: ps).map Prod.fst ∧ tr.2 ∈ (p :: ps).map Prod.snd := by
  refine ⟨(((p :: ps).map Prod.fst).foldl (fun m v => min v m) p.1,
           ((p :: ps).map Prod.snd).foldl (fun m v => min v m) p.2),
          (((p :: ps).map Prod.fst).foldl (fun m v => max v m) p.1,
           ((p :: ps).map Prod.snd).foldl (fun m v => max v m) p.2),
          ?_, ?_, ?_, ?_, ?_, ?_⟩
  · show some ((p :: ps).foldl bboxStep ((p.1, p.2), (p.1, p.2))) = _
    rw [bbox_foldl_eq]
  · intro q hq
    exact ⟨foldl_min_le_mem p.1 _ q.1 (List.mem_map_of_mem Prod.fst hq),
      foldl_min_le_mem p.2 _ q.2 (List.mem_map_of_mem Prod.snd hq),
      foldl_max_ge_mem p.1 _ q.1 (List.mem_map_of_mem Prod.fst hq),
      foldl_max_ge_mem p.2 _ q.2 (List.mem_map_of_mem Prod.snd hq)⟩
  · show ((p :: ps).map Prod.fst).foldl (fun m v => min v m) p.1 ∈ (p :: ps).map Prod.fst
    rcases List.mem_cons.mp (foldl_min_mem p.1 ((p :: ps).map Prod.fst)) with he | hm
    · rw [he]; exact List.mem_map_of_mem Prod.fst (List.mem_cons_self p ps)
    · exact hm
  · show ((p :: ps).map Prod.snd).foldl (fun m v => min v m) p.2 ∈ (p :: ps).map Prod.snd
    rcases List.mem_cons.mp (foldl_min_mem p.2 ((p :: ps).map Prod.snd)) with he | hm
    · rw [he]; exact List.mem_map_of_mem Prod.snd (List.mem_cons_self p ps)
    · exact hm
  · show ((p :: ps).map Prod.fst).foldl (fun m v => max v m) p.1 ∈ (p :: ps).map Prod.fst
    rcases List.mem_cons.mp (foldl_max_mem p.1 ((p :: ps).map Prod.fst)) with he | hm
    · rw [he]; exact List.mem_map_of_mem Prod.fst (List.mem_cons_self p ps)
    · exact hm
  · show ((p :: ps).map Prod.snd).foldl (fun m v => max v m) p.2 ∈ (p :: ps).map Prod.snd
    rcases List.mem_cons.mp (foldl_max_mem p.2 ((p :: ps).map Prod.snd)) with he | hm
    · rw [he]; exact List.mem_map_of_mem Prod.snd (List.mem_cons_self p ps)
    · exact hm

/-- C2: after a successful render, `get_bounds` returns the caller-supplied
area verbatim when one was given, and otherwise the auto-derived box whose
bottom-left is the componentwise minimum and whose top-right is the
componentwise maximum over all input points (each coordinate both bounds
every point and is attained by one). -/
theorem c2_get_bounds (s : HState) (a : HArgs)
    (h : ((heatmap s a).2).isOk = true) :
    (∀ ar, a.area = some ar → get_bounds (heatmap s a).1 = some ar) ∧
    (a.area = none → ∃ bl tr, get_bounds (heatmap s a).1 = some (bl, tr) ∧
      (∀ q ∈ a.points, bl.1 ≤ q.1 ∧ bl.2 ≤ q.2 ∧ q.1 ≤ tr.1 ∧ q.2 ≤ tr.2) ∧
      bl.1 ∈ a.points.map Prod.fst ∧ bl.2 ∈ a.points.map Prod.snd ∧
      tr.1 ∈ a.points.map Prod.fst ∧ tr.2 ∈ a.points.map Prod.snd) := by
  rcases heatmap_cases s a with ⟨h1, hbad⟩ | ⟨r, h1, h2⟩
  · rw [hbad] at h
    exact absurd h (by simp)
  · constructor
    · intro ar har
      rw [h1]
      simp [get_bounds, storeArgs, har]
    · intro har
      have hne : a.points ≠ [] := heatmap_ok_points_ne_nil s a h har
      rcases hp : a.points with _ | ⟨p, ps⟩
      · exact absurd hp hne
      obtain ⟨bl, tr, hbb, hbound, hm1, hm2, hm3, hm4⟩ := create_bbox_spec p ps
      refine ⟨bl, tr, ?_, hbound, hm1, hm2, hm3, hm4⟩
      rw [h1]
      simp [get_bounds, storeArgs, har, hp, hbb]

/-- Witness for C2: points `[(0, 0), (10, 10)]` with no explicit area yield
`get_bounds = ((0, 0), (10, 10))`, and the bounding/attainment properties
follow from the theorem applied at that input. -/
theorem c2_witness :
    get_bounds (heatmap initState cArgs2).1 = some ((0, 0), (10, 10)) ∧
    (∃ bl tr, get_bounds (heatmap initState cArgs2).1 = some (bl, tr) ∧
      (∀ q ∈ cArgs2.points, bl.1 ≤ q.1 ∧ bl.2 ≤ q.2 ∧ q.1 ≤ tr.1 ∧ q.2 ≤ tr.2) ∧
      bl.1 ∈ cArgs2.points.map Prod.fst ∧ bl.2 ∈ cArgs2.points.map Prod.snd ∧
      tr.1 ∈ cArgs2.points.map Prod.fst ∧ tr.2 ∈ cArgs2.points.map Prod.snd) :=
  ⟨by decide, (c2_get_bounds initState cArgs2 (by decide)).2 rfl⟩

/-! ## C6: degenerate explicit areas are not corrected -/

/-- C6 counterexample: the explicit degenerate area `((10, 0), (0, 10))`
(whose bottom-left x exceeds its top-right x) is accepted by a successful
render and reported by `get_bounds` verbatim — no per-axis min/max
correction happens, so the effective area does not satisfy
`bottom_left.x ≤ top_right.x`. -/
theorem c6_counterexample :
    ((heatmap initState degArgs).2).isOk = true ∧
    get_bounds (heatmap initState degArgs).1 = some ((10, 0), (0, 10)) ∧
    ¬ ((10 : ℚ) ≤ (0 : ℚ)) :=
  ⟨by decide, by decide, by norm_num⟩

/-- C6 (amended): an explicitly supplied area — degenerate or not — is
stored and reported by `get_bounds` verbatim, with `override = 1`; no
normalization of any kind is applied to it. -/
theorem c6_area_verbatim (s : HState) (a : HArgs) (ar : Area) (h : a.area = some ar) :
    (heatmap s a).1.area = some ar ∧ (heatmap s a).1.override = some 1 ∧
    get_bounds (heatmap s a).1 = some ar := by
  have harea : (heatmap s a).1.area = some ar := by
    rcases heatmap_cases s a with ⟨h1, _⟩ | ⟨r, h1, _⟩ <;>
      rw [h1] <;> simp [storeArgs, h]
  have hover : (heatmap s a).1.override = some 1 := by
    rcases heatmap_cases s a with ⟨h1, _⟩ | ⟨r, h1, _⟩ <;>
      rw [h1] <;> simp [storeArgs, h]
  refine ⟨harea, hover, ?_⟩
  rw [get_bounds, hover, harea]
  rfl

/-- Witness for C6's amended theorem at the degenerate area. -/
theorem c6_witness :
    (heatmap initState degArgs).1.area = some ((10, 0), (0, 10)) ∧
    (heatmap initState degArgs).1.override = some 1 ∧
    get_bounds (heatmap initState degArgs).1 = some ((10, 0), (0, 10)) :=
  c6_area_verbatim initState degArgs ((10, 0), (0, 10)) rfl

/-- Witness for C10 at a concrete post-render state with bounds
`((0, 0), (10, 10))`: `east` receives 0 (the minimum x) and `west` 10. -/
theorem c10_witness :
    save_kml sDone "map.kml" =
      ([FileWrite.png (stripExt "map.kml" ++ ".png") [],
        FileWrite.kml "map.kml"
          { href := stripExt "map.kml" ++ ".png",
            north := 10, south := 0, east := 0, west := 10 }],
       .ok ()) :=
  c10_kml_latlonbox sDone "map.kml" [] (0, 0) (10, 10) rfl (by decide)

end HeatmapModel
